import Mathlib

/-!
Shallow embedding of the `Scene` class of this repository (two versions of
`Scene.js`) and of the parts of the canvas rendering context it touches.

JS numbers are modelled by `ℚ`; every claim is about inputs where the JS
arithmetic is exact, so rational arithmetic agrees with the source.  The 2D
context is modelled by the diagonal affine transforms that `translate`/`scale`
generate, a save stack, and the `fillStyle`/`filter` strings; each externally
visible action of `draw`/`update`/`_start` is recorded in an event trace.
A game object's optional `start`/`update`/`draw` hooks are modelled by
`Option Bool`: `none` means the hook is absent, `some b` means it is present
and raises an exception iff `b` is true.  A raised exception is the
`Option Err` component of a result: when it is `some`, the remaining
iterations and the epilogue of the entry point did not run, mirroring JS
exception propagation.
-/

namespace Day24

/-- A diagonal affine transform: the point map `p ↦ (sx*p.x + tx, sy*p.y + ty)`.
`translate` and `scale` only ever produce transforms of this shape. -/
structure Xform where
  sx : ℚ
  sy : ℚ
  tx : ℚ
  ty : ℚ
  deriving DecidableEq

/-- Composition as the canvas CTM update: `comp t m` applies `m` first in user
space, i.e. `(comp t m).apply p = t.apply (m.apply p)`. -/
def Xform.comp (t m : Xform) : Xform :=
  ⟨t.sx * m.sx, t.sy * m.sy, t.sx * m.tx + t.tx, t.sy * m.ty + t.ty⟩

/-- The state of the 2D rendering context that `Scene` touches. -/
structure Ctx where
  canvasWidth : ℚ
  canvasHeight : ℚ
  transform : Xform
  stack : List Xform
  fillStyle : String
  filter : String
  deriving DecidableEq

/-- `ctx.translate(dx, dy)`. -/
def Ctx.doTranslate (c : Ctx) (dx dy : ℚ) : Ctx :=
  { c with transform := c.transform.comp ⟨1, 1, dx, dy⟩ }

/-- `ctx.scale(fx, fy)`. -/
def Ctx.doScale (c : Ctx) (fx fy : ℚ) : Ctx :=
  { c with transform := c.transform.comp ⟨fx, fy, 0, 0⟩ }

/-- `ctx.save()`. -/
def Ctx.doSave (c : Ctx) : Ctx := { c with stack := c.transform :: c.stack }

/-- `ctx.restore()`: pops the saved state; a no-op on an empty stack. -/
def Ctx.doRestore (c : Ctx) : Ctx :=
  match c.stack with
  | [] => c
  | t :: rest => { c with transform := t, stack := rest }

/-- A game object as the `Scene` sees it: a numeric `layer` plus the three
optional hooks.  `id` identifies the object in the event trace. -/
structure GameObject where
  id : Nat
  layer : Int
  start : Option Bool := none
  update : Option Bool := none
  draw : Option Bool := none
  deriving DecidableEq

/-- The transform of the global `Camera.main`, read by `Scene.draw`. -/
structure Camera where
  x : ℚ
  y : ℚ
  scaleX : ℚ
  scaleY : ℚ
  deriving DecidableEq

/-- Where an exception was raised. -/
inductive Err where
  | sceneHook : Err
  | obj : Nat → Err
  deriving DecidableEq

/-- Externally visible events of one entry-point call, in order. -/
inductive Ev where
  | fillRect (x y w h : ℚ) (style : String)
  | save
  | restore
  | translate (dx dy : ℚ)
  | scale (fx fy : ℚ)
  | objDraw (id : Nat) (layer : Int) (filter : String) (tf : Xform)
  | objStart (id : Nat)
  | objUpdate (id : Nat)
  | sceneStartHook
  deriving DecidableEq

/-- The canonical `Scene` (the version with logical-coordinate support).
`logicalWidth` and `aspectRatio` default to `-1` (disabled), as in the source.
`start : Option Bool` models the scene's own optional start hook. -/
structure Scene where
  backgroundColor : String
  gameObjects : List GameObject := []
  hasStarted : Bool := false
  logicalWidth : ℚ := -1
  aspectRatio : ℚ := -1
  start : Option Bool := none
  deriving DecidableEq

/-- The loop body of `_start`: `for (const gameObject of this.gameObjects)
{ if (gameObject.start) gameObject.start(ctx); }`, stopping when a hook
raises. -/
def startLoop : List GameObject → List Ev × Option Err
  | [] => ([], none)
  | g :: rest =>
    match g.start with
    | none => startLoop rest
    | some raises =>
      if raises then ([Ev.objStart g.id], some (Err.obj g.id))
      else
        let r := startLoop rest
        (Ev.objStart g.id :: r.1, r.2)

/-- `Scene._start`: guarded by `hasStarted`; sets the flag, runs the scene's
own optional start hook, then the objects' start hooks in insertion order. -/
def Scene._start (s : Scene) : Scene × List Ev × Option Err :=
  if s.hasStarted then (s, [], none)
  else
    let s1 := { s with hasStarted := true }
    match s.start with
    | some true => (s1, [Ev.sceneStartHook], some Err.sceneHook)
    | some false =>
      let r := startLoop s1.gameObjects
      (s1, Ev.sceneStartHook :: r.1, r.2)
    | none =>
      let r := startLoop s1.gameObjects
      (s1, r.1, r.2)

/-- The loop body of `update`, stopping when a hook raises. -/
def updateLoop : List GameObject → List Ev × Option Err
  | [] => ([], none)
  | g :: rest =>
    match g.update with
    | none => updateLoop rest
    | some raises =>
      if raises then ([Ev.objUpdate g.id], some (Err.obj g.id))
      else
        let r := updateLoop rest
        (Ev.objUpdate g.id :: r.1, r.2)

/-- `Scene.update`: update every game object that has the hook, in insertion
order. -/
def Scene.update (s : Scene) : List Ev × Option Err := updateLoop s.gameObjects

/-- The comparator `(a, b) => a.layer - b.layer` as the order it sorts by. -/
def layerLE (a b : GameObject) : Prop := a.layer ≤ b.layer

instance : DecidableRel layerLE := fun a b =>
  inferInstanceAs (Decidable (a.layer ≤ b.layer))

instance : IsTotal GameObject layerLE := ⟨fun a b => Int.le_total a.layer b.layer⟩

instance : IsTrans GameObject layerLE := ⟨fun _ _ _ h1 h2 => le_trans h1 h2⟩

/-- The per-object part of `Scene.draw`: set `ctx.filter` from the layer
(`-1` means glow), then call the object's draw hook if present; a raising
hook aborts the loop. -/
def drawLoop : Ctx → List GameObject → Ctx × List Ev × Option Err
  | c, [] => (c, [], none)
  | c, g :: rest =>
    let c1 := { c with filter := if g.layer = -1 then "blur(2px)" else "none" }
    match g.draw with
    | none => drawLoop c1 rest
    | some raises =>
      let ev := Ev.objDraw g.id g.layer c1.filter c1.transform
      if raises then (c1, [ev], some (Err.obj g.id))
      else
        let r := drawLoop c1 rest
        (r.1, ev :: r.2.1, r.2.2)

/-- Lines 83-105 of the canonical `Scene.draw`: the letterbox transform.
Returns the transformed context, the transform events emitted, and the
`letterBox1End`/`letterBox2Start` values (0 when logical coordinates are
disabled, where JS leaves them `undefined` and never reads them). -/
def Scene.letterbox (s : Scene) (c0 : Ctx) : Ctx × List Ev × ℚ × ℚ :=
  let w := c0.canvasWidth
  let h := c0.canvasHeight
  let windowAspectRatio := h / w
  if s.logicalWidth > 0 ∧ s.aspectRatio > 0 then
    if s.aspectRatio > windowAspectRatio then
      let letterBox1End := w / 2 - (h / s.aspectRatio) / 2
      let letterBox2Start := w / 2 + (h / s.aspectRatio) / 2
      let scaleFactor := h / s.logicalWidth
      ((c0.doTranslate letterBox1End 0).doScale scaleFactor scaleFactor,
        [Ev.translate letterBox1End 0, Ev.scale scaleFactor scaleFactor],
        letterBox1End, letterBox2Start)
    else
      let letterBox1End := h / 2 - (w * s.aspectRatio) / 2
      let letterBox2Start := (w * s.aspectRatio) / 2 + h / 2
      let scaleFactor := w / (s.logicalWidth / s.aspectRatio)
      ((c0.doTranslate 0 letterBox1End).doScale scaleFactor scaleFactor,
        [Ev.translate 0 letterBox1End, Ev.scale scaleFactor scaleFactor],
        letterBox1End, letterBox2Start)
  else (c0, [], 0, 0)

/-- Lines 133-144 of the canonical `Scene.draw`: the letterbox bars drawn
after the restore, with `fillStyle` already set to black. -/
def Scene.letterboxBars (s : Scene) (ctx : Ctx) (lb1 lb2 : ℚ) : List Ev :=
  let w := ctx.canvasWidth
  let h := ctx.canvasHeight
  if s.logicalWidth > 0 ∧ s.aspectRatio > 0 then
    if s.aspectRatio > h / w then
      [Ev.fillRect 0 0 lb1 h "black", Ev.fillRect lb2 0 w h "black"]
    else
      [Ev.fillRect 0 0 w lb1 "black", Ev.fillRect 0 lb2 w h "black"]
  else []

/-- The context in force when the draw loop starts: background fill style,
save, letterbox transform, then the camera transform (scale, then
translate by the negated camera position). -/
def Scene.preCtx (cam : Camera) (s : Scene) (ctx : Ctx) : Ctx :=
  (((s.letterbox (Ctx.doSave { ctx with fillStyle := s.backgroundColor })).1).doScale
      cam.scaleX cam.scaleY).doTranslate (-cam.x) (-cam.y)

/-- The canonical `Scene.draw` (part 000): clear, save, letterbox transform,
camera transform, draw a sorted copy of the objects, restore, set black
fill style, draw the letterbox bars.  A raising draw hook propagates: the
restore, the fill-style assignment and the bars do not happen. -/
def Scene.draw (cam : Camera) (s : Scene) (ctx : Ctx) :
    Scene × Ctx × List Ev × Option Err :=
  let c0 := Ctx.doSave { ctx with fillStyle := s.backgroundColor }
  let lb := s.letterbox c0
  let sortedLayers := List.insertionSort layerLE s.gameObjects
  let res := drawLoop (Scene.preCtx cam s ctx) sortedLayers
  let pre := Ev.fillRect 0 0 ctx.canvasWidth ctx.canvasHeight s.backgroundColor ::
    Ev.save :: (lb.2.1 ++ [Ev.scale cam.scaleX cam.scaleY, Ev.translate (-cam.x) (-cam.y)])
  if res.2.2.isSome then
    (s, res.1, pre ++ res.2.1, res.2.2)
  else
    (s, { res.1.doRestore with fillStyle := "black" },
      pre ++ res.2.1 ++ Ev.restore :: s.letterboxBars ctx lb.2.2.1 lb.2.2.2, none)

/-- The event trace of one `draw` call. -/
def Scene.drawTrace (cam : Camera) (s : Scene) (ctx : Ctx) : List Ev :=
  (Scene.draw cam s ctx).2.2.1

/-- The exception (if any) of one `draw` call. -/
def Scene.drawErr (cam : Camera) (s : Scene) (ctx : Ctx) : Option Err :=
  (Scene.draw cam s ctx).2.2.2

/-- The context state after one `draw` call. -/
def Scene.drawCtx (cam : Camera) (s : Scene) (ctx : Ctx) : Ctx :=
  (Scene.draw cam s ctx).2.1

/-- The second `Scene` version (part 001): no logical-coordinate fields and
no camera; `logicalWidth = 20` and `aspectRatio = 100` are hard-coded, and
the branch tests `canvas.width > canvas.height`. -/
structure Scene2 where
  backgroundColor : String
  gameObjects : List GameObject := []
  hasStarted : Bool := false
  start : Option Bool := none
  deriving DecidableEq

/-- Lines 85-108 of the second version: its letterbox transform. -/
def Scene2.letterbox (c0 : Ctx) : Ctx × List Ev × ℚ × ℚ :=
  let w := c0.canvasWidth
  let h := c0.canvasHeight
  let logicalWidth : ℚ := 20
  let aspectRatio : ℚ := 100
  if w > h then
    let letterBox1End := w / 2 - (h / aspectRatio) / 2
    let letterBox2Start := w / 2 + (h / aspectRatio) / 2
    let scaleFactor := h / logicalWidth
    ((c0.doTranslate letterBox1End 0).doScale scaleFactor scaleFactor,
      [Ev.translate letterBox1End 0, Ev.scale scaleFactor scaleFactor],
      letterBox1End, letterBox2Start)
  else
    let letterBox1End := (h - w) / 2
    let letterBox2Start := (w + h) / 2
    let scaleFactor := w / logicalWidth
    ((c0.doTranslate 0 letterBox1End).doScale scaleFactor scaleFactor,
      [Ev.translate 0 letterBox1End, Ev.scale scaleFactor scaleFactor],
      letterBox1End, letterBox2Start)

/-- Lines 133-141 of the second version: its letterbox bars. -/
def Scene2.letterboxBars (ctx : Ctx) (lb1 lb2 : ℚ) : List Ev :=
  let w := ctx.canvasWidth
  let h := ctx.canvasHeight
  if w > h then
    [Ev.fillRect 0 0 lb1 h "black", Ev.fillRect lb2 0 w h "black"]
  else
    [Ev.fillRect 0 0 w lb1 "black", Ev.fillRect 0 lb2 w h "black"]

/-- The second version's `draw`: like the canonical one but with the
hard-coded letterbox and no camera transform. -/
def Scene2.draw (s : Scene2) (ctx : Ctx) : Scene2 × Ctx × List Ev × Option Err :=
  let c0 := Ctx.doSave { ctx with fillStyle := s.backgroundColor }
  let lb := Scene2.letterbox c0
  let sortedLayers := List.insertionSort layerLE s.gameObjects
  let res := drawLoop lb.1 sortedLayers
  let pre := Ev.fillRect 0 0 ctx.canvasWidth ctx.canvasHeight s.backgroundColor ::
    Ev.save :: lb.2.1
  if res.2.2.isSome then
    (s, res.1, pre ++ res.2.1, res.2.2)
  else
    (s, { res.1.doRestore with fillStyle := "black" },
      pre ++ res.2.1 ++ Ev.restore :: Scene2.letterboxBars ctx lb.2.2.1 lb.2.2.2, none)

/-- The event trace of one `Scene2.draw` call. -/
def Scene2.drawTrace (s : Scene2) (ctx : Ctx) : List Ev :=
  (Scene2.draw s ctx).2.2.1

/-- The layers of the objects drawn in a trace, in draw order. -/
def drawnLayers (tr : List Ev) : List Int :=
  tr.filterMap fun ev =>
    match ev with
    | Ev.objDraw _ ly _ _ => some ly
    | _ => none

/-- The ids of the objects drawn in a trace, in draw order. -/
def drawnIds (tr : List Ev) : List Nat :=
  tr.filterMap fun ev =>
    match ev with
    | Ev.objDraw i _ _ _ => some i
    | _ => none

/-- The start events the objects of a list produce when no hook raises. -/
def startEvents (l : List GameObject) : List Ev :=
  l.filterMap fun g => if g.start.isSome then some (Ev.objStart g.id) else none

/-- The update events the objects of a list produce when no hook raises. -/
def updateEvents (l : List GameObject) : List Ev :=
  l.filterMap fun g => if g.update.isSome then some (Ev.objUpdate g.id) else none

/-- The ids of the objects of a list that have a draw hook, in order. -/
def drawIds (l : List GameObject) : List Nat :=
  l.filterMap fun g => if g.draw.isSome then some g.id else none

/-- The camera step of `draw` as a single transform: scale by
`(scaleX, scaleY)`, then translate by `(-x, -y)`. -/
def cameraXform (cam : Camera) : Xform :=
  ⟨cam.scaleX, cam.scaleY, cam.scaleX * -cam.x, cam.scaleY * -cam.y⟩

section Lemmas

theorem Xform.comp_assoc (a b c : Xform) :
    (a.comp b).comp c = a.comp (b.comp c) := by
  simp only [Xform.comp, Xform.mk.injEq]
  refine ⟨by ring, by ring, by ring, by ring⟩

theorem Ctx.doScale_doTranslate_transform (c : Ctx) (fx fy dx dy : ℚ) :
    ((c.doScale fx fy).doTranslate dx dy).transform =
      c.transform.comp ⟨fx, fy, fx * dx, fy * dy⟩ := by
  simp only [Ctx.doScale, Ctx.doTranslate, Xform.comp_assoc]
  simp [Xform.comp]

theorem Scene.preCtx_transform (cam : Camera) (s : Scene) (ctx : Ctx) :
    (Scene.preCtx cam s ctx).transform =
      ((s.letterbox (Ctx.doSave { ctx with fillStyle := s.backgroundColor })).1.transform).comp
        (cameraXform cam) :=
  Ctx.doScale_doTranslate_transform _ _ _ _ _

/-- `letterbox` changes only the transform of the context. -/
theorem Scene.letterbox_fst (s : Scene) (c0 : Ctx) :
    ((s.letterbox c0).1).stack = c0.stack ∧
    ((s.letterbox c0).1).canvasWidth = c0.canvasWidth ∧
    ((s.letterbox c0).1).canvasHeight = c0.canvasHeight ∧
    ((s.letterbox c0).1).fillStyle = c0.fillStyle ∧
    ((s.letterbox c0).1).filter = c0.filter := by
  simp only [Scene.letterbox]
  split_ifs <;> exact ⟨rfl, rfl, rfl, rfl, rfl⟩

/-- The transform events of `letterbox` are one translate then one scale,
or nothing. -/
theorem Scene.letterbox_events (s : Scene) (c0 : Ctx) :
    (s.letterbox c0).2.1 = [] ∨
      ∃ a b f, (s.letterbox c0).2.1 = [Ev.translate a b, Ev.scale f f] := by
  simp only [Scene.letterbox]
  split_ifs
  · exact Or.inr ⟨_, _, _, rfl⟩
  · exact Or.inr ⟨_, _, _, rfl⟩
  · exact Or.inl rfl

/-- The left/right letterbox branch, explicitly. -/
theorem Scene.letterbox_left_right (s : Scene) (c0 : Ctx)
    (hlw : s.logicalWidth > 0) (har : s.aspectRatio > 0)
    (hbr : s.aspectRatio > c0.canvasHeight / c0.canvasWidth) :
    s.letterbox c0 =
      ((c0.doTranslate (c0.canvasWidth / 2 - (c0.canvasHeight / s.aspectRatio) / 2) 0).doScale
          (c0.canvasHeight / s.logicalWidth) (c0.canvasHeight / s.logicalWidth),
        [Ev.translate (c0.canvasWidth / 2 - (c0.canvasHeight / s.aspectRatio) / 2) 0,
          Ev.scale (c0.canvasHeight / s.logicalWidth) (c0.canvasHeight / s.logicalWidth)],
        c0.canvasWidth / 2 - (c0.canvasHeight / s.aspectRatio) / 2,
        c0.canvasWidth / 2 + (c0.canvasHeight / s.aspectRatio) / 2) := by
  unfold Scene.letterbox
  rw [if_pos ⟨hlw, har⟩, if_pos hbr]

/-- The top/bottom letterbox branch, explicitly. -/
theorem Scene.letterbox_top_bottom (s : Scene) (c0 : Ctx)
    (hlw : s.logicalWidth > 0) (har : s.aspectRatio > 0)
    (hbr : s.aspectRatio ≤ c0.canvasHeight / c0.canvasWidth) :
    s.letterbox c0 =
      ((c0.doTranslate 0 (c0.canvasHeight / 2 - (c0.canvasWidth * s.aspectRatio) / 2)).doScale
          (c0.canvasWidth / (s.logicalWidth / s.aspectRatio))
          (c0.canvasWidth / (s.logicalWidth / s.aspectRatio)),
        [Ev.translate 0 (c0.canvasHeight / 2 - (c0.canvasWidth * s.aspectRatio) / 2),
          Ev.scale (c0.canvasWidth / (s.logicalWidth / s.aspectRatio))
            (c0.canvasWidth / (s.logicalWidth / s.aspectRatio))],
        c0.canvasHeight / 2 - (c0.canvasWidth * s.aspectRatio) / 2,
        (c0.canvasWidth * s.aspectRatio) / 2 + c0.canvasHeight / 2) := by
  unfold Scene.letterbox
  rw [if_pos ⟨hlw, har⟩, if_neg (not_lt.mpr hbr)]

/-- With logical coordinates disabled `letterbox` does nothing. -/
theorem Scene.letterbox_disabled (s : Scene) (c0 : Ctx)
    (h : s.logicalWidth ≤ 0 ∨ s.aspectRatio ≤ 0) :
    s.letterbox c0 = (c0, [], 0, 0) := by
  unfold Scene.letterbox
  rw [if_neg]
  rcases h with h | h
  · exact fun hc => absurd hc.1 (not_lt.mpr h)
  · exact fun hc => absurd hc.2 (not_lt.mpr h)

/-- With logical coordinates disabled no bars are drawn. -/
theorem Scene.letterboxBars_disabled (s : Scene) (ctx : Ctx) (lb1 lb2 : ℚ)
    (h : s.logicalWidth ≤ 0 ∨ s.aspectRatio ≤ 0) :
    s.letterboxBars ctx lb1 lb2 = [] := by
  unfold Scene.letterboxBars
  rw [if_neg]
  rcases h with h | h
  · exact fun hc => absurd hc.1 (not_lt.mpr h)
  · exact fun hc => absurd hc.2 (not_lt.mpr h)

/-- The bars of the left/right letterbox branch. -/
theorem Scene.letterboxBars_left_right (s : Scene) (ctx : Ctx) (lb1 lb2 : ℚ)
    (hlw : s.logicalWidth > 0) (har : s.aspectRatio > 0)
    (hbr : s.aspectRatio > ctx.canvasHeight / ctx.canvasWidth) :
    s.letterboxBars ctx lb1 lb2 =
      [Ev.fillRect 0 0 lb1 ctx.canvasHeight "black",
        Ev.fillRect lb2 0 ctx.canvasWidth ctx.canvasHeight "black"] := by
  unfold Scene.letterboxBars
  rw [if_pos (And.intro hlw har), if_pos hbr]

/-- The bars of the top/bottom letterbox branch. -/
theorem Scene.letterboxBars_top_bottom (s : Scene) (ctx : Ctx) (lb1 lb2 : ℚ)
    (hlw : s.logicalWidth > 0) (har : s.aspectRatio > 0)
    (hbr : s.aspectRatio ≤ ctx.canvasHeight / ctx.canvasWidth) :
    s.letterboxBars ctx lb1 lb2 =
      [Ev.fillRect 0 0 ctx.canvasWidth lb1 "black",
        Ev.fillRect 0 lb2 ctx.canvasWidth ctx.canvasHeight "black"] := by
  unfold Scene.letterboxBars
  rw [if_pos (And.intro hlw har), if_neg (not_lt.mpr hbr)]

/-- The exception of `draw` is the exception of its object loop. -/
theorem Scene.drawErr_eq (cam : Camera) (s : Scene) (ctx : Ctx) :
    Scene.drawErr cam s ctx =
      (drawLoop (Scene.preCtx cam s ctx) (List.insertionSort layerLE s.gameObjects)).2.2 := by
  unfold Scene.drawErr Scene.draw
  cases h : (drawLoop (Scene.preCtx cam s ctx) (List.insertionSort layerLE s.gameObjects)).2.2 <;>
    simp [h]

/-- The full trace of `draw`: prologue, loop events, and (on the normal
path) the restore and the bars. -/
theorem Scene.drawTrace_eq (cam : Camera) (s : Scene) (ctx : Ctx) :
    Scene.drawTrace cam s ctx =
      (Ev.fillRect 0 0 ctx.canvasWidth ctx.canvasHeight s.backgroundColor ::
        Ev.save ::
          ((s.letterbox (Ctx.doSave { ctx with fillStyle := s.backgroundColor })).2.1 ++
            [Ev.scale cam.scaleX cam.scaleY, Ev.translate (-cam.x) (-cam.y)])) ++
      (drawLoop (Scene.preCtx cam s ctx) (List.insertionSort layerLE s.gameObjects)).2.1 ++
      (if (drawLoop (Scene.preCtx cam s ctx)
            (List.insertionSort layerLE s.gameObjects)).2.2.isSome then []
        else Ev.restore ::
          s.letterboxBars ctx
            (s.letterbox (Ctx.doSave { ctx with fillStyle := s.backgroundColor })).2.2.1
            (s.letterbox (Ctx.doSave { ctx with fillStyle := s.backgroundColor })).2.2.2) := by
  unfold Scene.drawTrace Scene.draw
  cases h : (drawLoop (Scene.preCtx cam s ctx) (List.insertionSort layerLE s.gameObjects)).2.2 <;>
    simp [h]

/-- The context `draw` returns on the normal path. -/
theorem Scene.drawCtx_eq (cam : Camera) (s : Scene) (ctx : Ctx)
    (hok : Scene.drawErr cam s ctx = none) :
    Scene.drawCtx cam s ctx =
      { ((drawLoop (Scene.preCtx cam s ctx)
            (List.insertionSort layerLE s.gameObjects)).1).doRestore with
        fillStyle := "black" } := by
  rw [Scene.drawErr_eq] at hok
  unfold Scene.drawCtx Scene.draw
  simp [hok]

/-- The filter the loop sets before drawing an object of a given layer. -/
def filterFor (ly : Int) : String := if ly = -1 then "blur(2px)" else "none"

theorem drawLoop_nil (c : Ctx) : drawLoop c [] = (c, [], none) := rfl

theorem drawLoop_cons_none (c : Ctx) (g : GameObject) (rest : List GameObject)
    (hg : g.draw = none) :
    drawLoop c (g :: rest) = drawLoop { c with filter := filterFor g.layer } rest := by
  simp only [drawLoop, hg, filterFor]

theorem drawLoop_cons_raise (c : Ctx) (g : GameObject) (rest : List GameObject)
    (hg : g.draw = some true) :
    drawLoop c (g :: rest) =
      ({ c with filter := filterFor g.layer },
        [Ev.objDraw g.id g.layer (filterFor g.layer) c.transform],
        some (Err.obj g.id)) := by
  simp only [drawLoop, hg, filterFor]
  rfl

theorem drawLoop_cons_ok (c : Ctx) (g : GameObject) (rest : List GameObject)
    (hg : g.draw = some false) :
    drawLoop c (g :: rest) =
      ((drawLoop { c with filter := filterFor g.layer } rest).1,
        Ev.objDraw g.id g.layer (filterFor g.layer) c.transform ::
          (drawLoop { c with filter := filterFor g.layer } rest).2.1,
        (drawLoop { c with filter := filterFor g.layer } rest).2.2) := by
  simp only [drawLoop, hg, filterFor]
  rfl

/-- The object loop changes only the filter of the context. -/
theorem drawLoop_fst (l : List GameObject) : ∀ c : Ctx,
    ((drawLoop c l).1).transform = c.transform ∧ ((drawLoop c l).1).stack = c.stack := by
  induction l with
  | nil => intro c; exact ⟨rfl, rfl⟩
  | cons g rest ih =>
    intro c
    cases hg : g.draw with
    | none => rw [drawLoop_cons_none c g rest hg]; exact ih _
    | some raises =>
      cases raises with
      | false => rw [drawLoop_cons_ok c g rest hg]; exact ih _
      | true => rw [drawLoop_cons_raise c g rest hg]; exact ⟨rfl, rfl⟩

/-- Every event of the object loop is a draw of one of its objects, with the
filter determined by that object's layer and the transform of the loop's
context. -/
theorem drawLoop_events (l : List GameObject) : ∀ (c : Ctx) (ev : Ev),
    ev ∈ (drawLoop c l).2.1 →
    ∃ g, g ∈ l ∧ (g.draw).isSome ∧
      ev = Ev.objDraw g.id g.layer (filterFor g.layer) c.transform := by
  induction l with
  | nil => intro c ev h; exact absurd h (List.not_mem_nil ev)
  | cons g rest ih =>
    intro c ev h
    cases hg : g.draw with
    | none =>
      rw [drawLoop_cons_none c g rest hg] at h
      obtain ⟨g', hg', hs, he⟩ := ih _ _ h
      exact ⟨g', List.mem_cons_of_mem _ hg', hs, he⟩
    | some raises =>
      cases raises with
      | true =>
        rw [drawLoop_cons_raise c g rest hg, List.mem_singleton] at h
        exact ⟨g, List.mem_cons_self _ _, by rw [hg]; rfl, h⟩
      | false =>
        rw [drawLoop_cons_ok c g rest hg] at h
        rcases List.mem_cons.mp h with h | h
        · exact ⟨g, List.mem_cons_self _ _, by rw [hg]; rfl, h⟩
        · obtain ⟨g', hg', hs, he⟩ := ih _ _ h
          exact ⟨g', List.mem_cons_of_mem _ hg', hs, he⟩

/-- On a layer-sorted object list the loop draws in ascending layer order. -/
theorem drawLoop_layers_sorted (l : List GameObject) (hs : List.Sorted layerLE l) :
    ∀ c : Ctx, List.Sorted (· ≤ ·) (drawnLayers (drawLoop c l).2.1) := by
  induction l with
  | nil => intro c; simp [drawLoop_nil, drawnLayers]
  | cons g rest ih =>
    intro c
    rw [List.sorted_cons] at hs
    cases hg : g.draw with
    | none => rw [drawLoop_cons_none c g rest hg]; exact ih hs.2 _
    | some raises =>
      cases raises with
      | true => rw [drawLoop_cons_raise c g rest hg]; simp [drawnLayers]
      | false =>
        rw [drawLoop_cons_ok c g rest hg]
        simp only [drawnLayers, List.filterMap_cons]
        rw [List.sorted_cons]
        constructor
        · intro b hb
          rw [List.mem_filterMap] at hb
          obtain ⟨ev, hev, hb⟩ := hb
          obtain ⟨g', hg', _, he⟩ := drawLoop_events rest _ _ hev
          rw [he] at hb
          simp only [Option.some.injEq] at hb
          rw [← hb]
          exact hs.1 g' hg'
        · exact ih hs.2 _

/-- With no raising draw hook among its objects the loop succeeds. -/
theorem drawLoop_no_raise (l : List GameObject) (h : ∀ g ∈ l, g.draw ≠ some true) :
    ∀ c : Ctx, (drawLoop c l).2.2 = none := by
  induction l with
  | nil => intro c; rfl
  | cons g rest ih =>
    intro c
    cases hg : g.draw with
    | none =>
      rw [drawLoop_cons_none c g rest hg]
      exact ih (fun x hx => h x (List.mem_cons_of_mem _ hx)) _
    | some raises =>
      cases raises with
      | false =>
        rw [drawLoop_cons_ok c g rest hg]
        exact ih (fun x hx => h x (List.mem_cons_of_mem _ hx)) _
      | true => exact absurd hg (h g (List.mem_cons_self _ _))

/-- A first raising draw hook aborts the loop: the objects before it are
drawn, it is drawn, the exception carries its id, and nothing after it is
drawn. -/
theorem drawLoop_raise (pre : List GameObject) (g : GameObject) (post : List GameObject)
    (hpre : ∀ x ∈ pre, x.draw ≠ some true) (hg : g.draw = some true) :
    ∀ c : Ctx,
      (drawLoop c (pre ++ g :: post)).2.2 = some (Err.obj g.id) ∧
      drawnIds (drawLoop c (pre ++ g :: post)).2.1 = drawIds pre ++ [g.id] := by
  induction pre with
  | nil =>
    intro c
    rw [List.nil_append, drawLoop_cons_raise c g post hg]
    exact ⟨rfl, by simp [drawnIds, drawIds]⟩
  | cons x rest ih =>
    intro c
    have hx : x.draw ≠ some true := hpre x (List.mem_cons_self _ _)
    have hrest : ∀ y ∈ rest, y.draw ≠ some true :=
      fun y hy => hpre y (List.mem_cons_of_mem _ hy)
    rw [List.cons_append]
    cases hxd : x.draw with
    | none =>
      rw [drawLoop_cons_none c x _ hxd]
      obtain ⟨h1, h2⟩ := ih hrest _
      refine ⟨h1, ?_⟩
      rw [h2]
      simp [drawIds, List.filterMap_cons, hxd]
    | some raises =>
      cases raises with
      | true => exact absurd hxd hx
      | false =>
        rw [drawLoop_cons_ok c x _ hxd]
        obtain ⟨h1, h2⟩ := ih hrest _
        refine ⟨h1, ?_⟩
        simp only [drawnIds, List.filterMap_cons] at h2 ⊢
        rw [h2]
        simp [drawIds, List.filterMap_cons, hxd]

theorem startLoop_cons_none (g : GameObject) (rest : List GameObject)
    (hg : g.start = none) : startLoop (g :: rest) = startLoop rest := by
  simp only [startLoop, hg]

theorem startLoop_cons_raise (g : GameObject) (rest : List GameObject)
    (hg : g.start = some true) :
    startLoop (g :: rest) = ([Ev.objStart g.id], some (Err.obj g.id)) := by
  simp only [startLoop, hg]
  rfl

theorem startLoop_cons_ok (g : GameObject) (rest : List GameObject)
    (hg : g.start = some false) :
    startLoop (g :: rest) =
      (Ev.objStart g.id :: (startLoop rest).1, (startLoop rest).2) := by
  simp only [startLoop, hg]
  rfl

/-- With no raising start hook the start loop fires every present hook in
order. -/
theorem startLoop_no_raise (l : List GameObject) (h : ∀ g ∈ l, g.start ≠ some true) :
    startLoop l = (startEvents l, none) := by
  induction l with
  | nil => rfl
  | cons g rest ih =>
    have hrest : ∀ y ∈ rest, y.start ≠ some true :=
      fun y hy => h y (List.mem_cons_of_mem _ hy)
    cases hg : g.start with
    | none =>
      rw [startLoop_cons_none g rest hg, ih hrest]
      simp [startEvents, List.filterMap_cons, hg]
    | some raises =>
      cases raises with
      | true => exact absurd hg (h g (List.mem_cons_self _ _))
      | false =>
        rw [startLoop_cons_ok g rest hg, ih hrest]
        simp [startEvents, List.filterMap_cons, hg]

/-- A first raising start hook aborts the start loop. -/
theorem startLoop_raise (pre : List GameObject) (g : GameObject) (post : List GameObject)
    (hpre : ∀ x ∈ pre, x.start ≠ some true) (hg : g.start = some true) :
    startLoop (pre ++ g :: post) =
      (startEvents pre ++ [Ev.objStart g.id], some (Err.obj g.id)) := by
  induction pre with
  | nil => rw [List.nil_append, startLoop_cons_raise g post hg]; simp [startEvents]
  | cons x rest ih =>
    have hx : x.start ≠ some true := hpre x (List.mem_cons_self _ _)
    have hrest : ∀ y ∈ rest, y.start ≠ some true :=
      fun y hy => hpre y (List.mem_cons_of_mem _ hy)
    rw [List.cons_append]
    cases hxd : x.start with
    | none =>
      rw [startLoop_cons_none x _ hxd, ih hrest]
      simp [startEvents, List.filterMap_cons, hxd]
    | some raises =>
      cases raises with
      | true => exact absurd hxd hx
      | false =>
        rw [startLoop_cons_ok x _ hxd, ih hrest]
        simp [startEvents, List.filterMap_cons, hxd]

theorem updateLoop_cons_none (g : GameObject) (rest : List GameObject)
    (hg : g.update = none) : updateLoop (g :: rest) = updateLoop rest := by
  simp only [updateLoop, hg]

theorem updateLoop_cons_raise (g : GameObject) (rest : List GameObject)
    (hg : g.update = some true) :
    updateLoop (g :: rest) = ([Ev.objUpdate g.id], some (Err.obj g.id)) := by
  simp only [updateLoop, hg]
  rfl

theorem updateLoop_cons_ok (g : GameObject) (rest : List GameObject)
    (hg : g.update = some false) :
    updateLoop (g :: rest) =
      (Ev.objUpdate g.id :: (updateLoop rest).1, (updateLoop rest).2) := by
  simp only [updateLoop, hg]
  rfl

/-- A first raising update hook aborts the update loop. -/
theorem updateLoop_raise (pre : List GameObject) (g : GameObject) (post : List GameObject)
    (hpre : ∀ x ∈ pre, x.update ≠ some true) (hg : g.update = some true) :
    updateLoop (pre ++ g :: post) =
      (updateEvents pre ++ [Ev.objUpdate g.id], some (Err.obj g.id)) := by
  induction pre with
  | nil => rw [List.nil_append, updateLoop_cons_raise g post hg]; simp [updateEvents]
  | cons x rest ih =>
    have hx : x.update ≠ some true := hpre x (List.mem_cons_self _ _)
    have hrest : ∀ y ∈ rest, y.update ≠ some true :=
      fun y hy => hpre y (List.mem_cons_of_mem _ hy)
    rw [List.cons_append]
    cases hxd : x.update with
    | none =>
      rw [updateLoop_cons_none x _ hxd, ih hrest]
      simp [updateEvents, List.filterMap_cons, hxd]
    | some raises =>
      cases raises with
      | true => exact absurd hxd hx
      | false =>
        rw [updateLoop_cons_ok x _ hxd, ih hrest]
        simp [updateEvents, List.filterMap_cons, hxd]

theorem _start_started (s : Scene) (h : s.hasStarted = true) :
    Scene._start s = (s, [], none) := by
  simp [Scene._start, h]

theorem _start_hook_none (s : Scene) (h0 : s.hasStarted = false) (hs : s.start = none) :
    Scene._start s = ({ s with hasStarted := true },
      (startLoop s.gameObjects).1, (startLoop s.gameObjects).2) := by
  simp [Scene._start, h0, hs]

theorem _start_hook_ok (s : Scene) (h0 : s.hasStarted = false) (hs : s.start = some false) :
    Scene._start s = ({ s with hasStarted := true },
      Ev.sceneStartHook :: (startLoop s.gameObjects).1, (startLoop s.gameObjects).2) := by
  simp [Scene._start, h0, hs]

theorem _start_hook_raise (s : Scene) (h0 : s.hasStarted = false) (hs : s.start = some true) :
    Scene._start s =
      ({ s with hasStarted := true }, [Ev.sceneStartHook], some Err.sceneHook) := by
  simp [Scene._start, h0, hs]

/-- Restoring a context with a non-empty save stack pops it. -/
theorem Ctx.doRestore_of_stack (c : Ctx) (t : Xform) (rest : List Xform)
    (h : c.stack = t :: rest) :
    c.doRestore = { c with transform := t, stack := rest } := by
  unfold Ctx.doRestore
  split
  · rename_i heq
    rw [h] at heq
    exact List.noConfusion heq
  · rename_i t' rest' heq
    rw [h] at heq
    obtain ⟨rfl, rfl⟩ : t' = t ∧ rest' = rest := by
      injection heq with h1 h2
      exact ⟨h1.symm, h2.symm⟩
    rfl

/-- The save stack in force when the object loop starts: the caller's
transform pushed onto the caller's stack. -/
theorem Scene.preCtx_stack (cam : Camera) (s : Scene) (ctx : Ctx) :
    (Scene.preCtx cam s ctx).stack = ctx.transform :: ctx.stack := by
  show ((((s.letterbox (Ctx.doSave { ctx with fillStyle := s.backgroundColor })).1).doScale
      cam.scaleX cam.scaleY).doTranslate (-cam.x) (-cam.y)).stack = _
  simp only [Ctx.doScale, Ctx.doTranslate]
  exact (Scene.letterbox_fst s _).1

/-- How many times an event occurs in a trace. -/
def evCount (e : Ev) : List Ev → Nat
  | [] => 0
  | x :: rest => (if x = e then 1 else 0) + evCount e rest

theorem evCount_append (e : Ev) (l1 l2 : List Ev) :
    evCount e (l1 ++ l2) = evCount e l1 + evCount e l2 := by
  induction l1 with
  | nil => simp [evCount]
  | cons x rest ih => simp [evCount, ih, Nat.add_assoc]

theorem evCount_eq_zero (e : Ev) (l : List Ev) (h : ∀ x ∈ l, x ≠ e) :
    evCount e l = 0 := by
  induction l with
  | nil => rfl
  | cons x rest ih =>
    simp only [evCount, if_neg (h x (List.mem_cons_self _ _)),
      ih (fun y hy => h y (List.mem_cons_of_mem _ hy))]

/-- Every bar event is a fill. -/
theorem letterboxBars_events (s : Scene) (ctx : Ctx) (lb1 lb2 : ℚ) :
    ∀ ev ∈ s.letterboxBars ctx lb1 lb2, ∃ x y w h st, ev = Ev.fillRect x y w h st := by
  intro ev hev
  simp only [Scene.letterboxBars] at hev
  split_ifs at hev
  · rcases List.mem_cons.mp hev with rfl | hev
    · exact ⟨_, _, _, _, _, rfl⟩
    rcases List.mem_cons.mp hev with rfl | hev
    · exact ⟨_, _, _, _, _, rfl⟩
    · exact absurd hev (List.not_mem_nil ev)
  · rcases List.mem_cons.mp hev with rfl | hev
    · exact ⟨_, _, _, _, _, rfl⟩
    rcases List.mem_cons.mp hev with rfl | hev
    · exact ⟨_, _, _, _, _, rfl⟩
    · exact absurd hev (List.not_mem_nil ev)
  · exact absurd hev (List.not_mem_nil ev)

/-- An object-draw event of the trace comes from the object loop. -/
theorem drawTrace_objDraw_mem (cam : Camera) (s : Scene) (ctx : Ctx)
    (i : Nat) (ly : Int) (f : String) (t : Xform)
    (hmem : Ev.objDraw i ly f t ∈ Scene.drawTrace cam s ctx) :
    Ev.objDraw i ly f t ∈
      (drawLoop (Scene.preCtx cam s ctx) (List.insertionSort layerLE s.gameObjects)).2.1 := by
  rw [Scene.drawTrace_eq] at hmem
  rcases List.mem_append.mp hmem with hAB | hsuf
  · rcases List.mem_append.mp hAB with hpre | hloop
    · exfalso
      rcases Scene.letterbox_events s
          (Ctx.doSave { ctx with fillStyle := s.backgroundColor }) with hlb | ⟨a, b, ff, hlb⟩ <;>
        rw [hlb] at hpre <;> simp at hpre
    · exact hloop
  · exfalso
    by_cases hb : (drawLoop (Scene.preCtx cam s ctx)
        (List.insertionSort layerLE s.gameObjects)).2.2.isSome
    · rw [if_pos hb] at hsuf
      exact List.not_mem_nil _ hsuf
    · rw [if_neg hb] at hsuf
      rcases List.mem_cons.mp hsuf with h | hbars
      · exact Ev.noConfusion h
      · obtain ⟨x, y, w, hh, st, he⟩ := letterboxBars_events s ctx _ _ _ hbars
        exact Ev.noConfusion he

end Lemmas

/-- A fresh rendering context bound to a `w × h` canvas: identity transform,
empty save stack. -/
def mkCtx (w h : ℚ) : Ctx :=
  { canvasWidth := w
    canvasHeight := h
    transform := ⟨1, 1, 0, 0⟩
    stack := []
    fillStyle := "w"
    filter := "none" }

/-- The identity camera. -/
def camId : Camera := ⟨0, 0, 1, 1⟩

section Claims

/-- C1: for every scene and canvas with `logicalWidth > 0`, `aspectRatio > 0`
and `aspectRatio > windowAspectRatio = canvasHeight / canvasWidth`, `draw`
takes the left/right letterbox branch: it computes
`letterBox1End = canvasWidth/2 - (canvasHeight/aspectRatio)/2` and
`letterBox2Start = canvasWidth/2 + (canvasHeight/aspectRatio)/2`, translates
the origin by `(letterBox1End, 0)` and applies the uniform scale factor
`canvasHeight / logicalWidth` to both axes (the bars it later fills run to
`letterBox1End` and from `letterBox2Start`). -/
theorem c1_letterbox_left_right (cam : Camera) (s : Scene) (ctx : Ctx)
    (hlw : s.logicalWidth > 0) (har : s.aspectRatio > 0)
    (hbr : s.aspectRatio > ctx.canvasHeight / ctx.canvasWidth)
    (hok : Scene.drawErr cam s ctx = none) :
    ∃ mid, Scene.drawTrace cam s ctx =
      Ev.fillRect 0 0 ctx.canvasWidth ctx.canvasHeight s.backgroundColor ::
      Ev.save ::
      Ev.translate (ctx.canvasWidth / 2 - (ctx.canvasHeight / s.aspectRatio) / 2) 0 ::
      Ev.scale (ctx.canvasHeight / s.logicalWidth) (ctx.canvasHeight / s.logicalWidth) ::
      Ev.scale cam.scaleX cam.scaleY ::
      Ev.translate (-cam.x) (-cam.y) ::
      (mid ++ Ev.restore ::
        [Ev.fillRect 0 0 (ctx.canvasWidth / 2 - (ctx.canvasHeight / s.aspectRatio) / 2)
            ctx.canvasHeight "black",
          Ev.fillRect (ctx.canvasWidth / 2 + (ctx.canvasHeight / s.aspectRatio) / 2) 0
            ctx.canvasWidth ctx.canvasHeight "black"]) := by
  refine ⟨(drawLoop (Scene.preCtx cam s ctx)
    (List.insertionSort layerLE s.gameObjects)).2.1, ?_⟩
  rw [Scene.drawErr_eq] at hok
  rw [Scene.drawTrace_eq, hok, Scene.letterbox_left_right s
    (Ctx.doSave { ctx with fillStyle := s.backgroundColor }) hlw har hbr,
    Scene.letterboxBars_left_right s ctx _ _ hlw har hbr]
  simp [Ctx.doSave]

/-- Witness for C1 at canvasWidth 800, canvasHeight 400, logicalWidth 20,
aspectRatio 1: the branch is taken (1 > 1/2) and `letterBox1End = 200`,
`letterBox2Start = 600`, scale factor 20. -/
theorem c1_letterbox_left_right_witness :
    (∃ mid, Scene.drawTrace camId
        { backgroundColor := "w", gameObjects := [], logicalWidth := 20, aspectRatio := 1 }
        (mkCtx 800 400) =
      Ev.fillRect 0 0 800 400 "w" ::
      Ev.save ::
      Ev.translate (800 / 2 - (400 / 1) / 2) 0 ::
      Ev.scale (400 / 20) (400 / 20) ::
      Ev.scale 1 1 ::
      Ev.translate (-0) (-0) ::
      (mid ++ Ev.restore ::
        [Ev.fillRect 0 0 (800 / 2 - (400 / 1) / 2) 400 "black",
          Ev.fillRect (800 / 2 + (400 / 1) / 2) 0 800 400 "black"])) ∧
    ((800 : ℚ) / 2 - (400 / 1) / 2 = 200) ∧
    ((800 : ℚ) / 2 + (400 / 1) / 2 = 600) ∧
    ((400 : ℚ) / 20 = 20) ∧ ((1 : ℚ) > 400 / 800) :=
  ⟨c1_letterbox_left_right camId
      { backgroundColor := "w", gameObjects := [], logicalWidth := 20, aspectRatio := 1 }
      (mkCtx 800 400)
      (by norm_num) (by norm_num) (by norm_num [mkCtx]) (by decide),
    by norm_num, by norm_num, by norm_num, by norm_num⟩

/-- C2: for every scene and canvas with `logicalWidth > 0`, `aspectRatio > 0`
and `aspectRatio ≤ windowAspectRatio`, `draw` takes the top/bottom letterbox
branch: it computes `letterBox1End = canvasHeight/2 - (canvasWidth*aspectRatio)/2`
and `letterBox2Start = (canvasWidth*aspectRatio)/2 + canvasHeight/2`,
translates the origin by `(0, letterBox1End)` and applies the uniform scale
factor `canvasWidth / (logicalWidth/aspectRatio)` to both axes. -/
theorem c2_letterbox_top_bottom (cam : Camera) (s : Scene) (ctx : Ctx)
    (hlw : s.logicalWidth > 0) (har : s.aspectRatio > 0)
    (hbr : s.aspectRatio ≤ ctx.canvasHeight / ctx.canvasWidth)
    (hok : Scene.drawErr cam s ctx = none) :
    ∃ mid, Scene.drawTrace cam s ctx =
      Ev.fillRect 0 0 ctx.canvasWidth ctx.canvasHeight s.backgroundColor ::
      Ev.save ::
      Ev.translate 0 (ctx.canvasHeight / 2 - (ctx.canvasWidth * s.aspectRatio) / 2) ::
      Ev.scale (ctx.canvasWidth / (s.logicalWidth / s.aspectRatio))
        (ctx.canvasWidth / (s.logicalWidth / s.aspectRatio)) ::
      Ev.scale cam.scaleX cam.scaleY ::
      Ev.translate (-cam.x) (-cam.y) ::
      (mid ++ Ev.restore ::
        [Ev.fillRect 0 0 ctx.canvasWidth
            (ctx.canvasHeight / 2 - (ctx.canvasWidth * s.aspectRatio) / 2) "black",
          Ev.fillRect 0 ((ctx.canvasWidth * s.aspectRatio) / 2 + ctx.canvasHeight / 2)
            ctx.canvasWidth ctx.canvasHeight "black"]) := by
  refine ⟨(drawLoop (Scene.preCtx cam s ctx)
    (List.insertionSort layerLE s.gameObjects)).2.1, ?_⟩
  rw [Scene.drawErr_eq] at hok
  rw [Scene.drawTrace_eq, hok, Scene.letterbox_top_bottom s
    (Ctx.doSave { ctx with fillStyle := s.backgroundColor }) hlw har hbr,
    Scene.letterboxBars_top_bottom s ctx _ _ hlw har hbr]
  simp [Ctx.doSave]

/-- Witness for C2 at canvasWidth 400, canvasHeight 800, logicalWidth 20,
aspectRatio 1: the top/bottom branch is taken (1 ≤ 2) with
`letterBox1End = 200`, `letterBox2Start = 600`, scale factor 20. -/
theorem c2_letterbox_top_bottom_witness :
    (∃ mid, Scene.drawTrace camId
        { backgroundColor := "w", gameObjects := [], logicalWidth := 20, aspectRatio := 1 }
        (mkCtx 400 800) =
      Ev.fillRect 0 0 400 800 "w" ::
      Ev.save ::
      Ev.translate 0 (800 / 2 - (400 * 1) / 2) ::
      Ev.scale (400 / (20 / 1)) (400 / (20 / 1)) ::
      Ev.scale 1 1 ::
      Ev.translate (-0) (-0) ::
      (mid ++ Ev.restore ::
        [Ev.fillRect 0 0 400 (800 / 2 - (400 * 1) / 2) "black",
          Ev.fillRect 0 ((400 * 1) / 2 + 800 / 2) 400 800 "black"])) ∧
    ((800 : ℚ) / 2 - (400 * 1) / 2 = 200) ∧
    (((400 : ℚ) * 1) / 2 + 800 / 2 = 600) ∧
    ((400 : ℚ) / (20 / 1) = 20) ∧ ((1 : ℚ) ≤ 800 / 400) :=
  ⟨c2_letterbox_top_bottom camId
      { backgroundColor := "w", gameObjects := [], logicalWidth := 20, aspectRatio := 1 }
      (mkCtx 400 800)
      (by norm_num) (by norm_num) (by norm_num [mkCtx]) (by decide),
    by norm_num, by norm_num, by norm_num, by norm_num⟩

/-- C3: with logical coordinates disabled (`logicalWidth ≤ 0` or
`aspectRatio ≤ 0`) the letterbox step does nothing, the transform in force
for the objects is exactly the caller's transform composed with the camera
scale-then-translate, and the trace holds no letterbox translate/scale and
no bars — only the clear, save, the two camera ops, the object draws and the
restore; and in every configuration the camera transform is composed inside
(on top of) whatever transform the letterbox step produced, not replacing
it. -/
theorem c3_camera_only (cam : Camera) (s : Scene) (ctx : Ctx) :
    (s.logicalWidth ≤ 0 ∨ s.aspectRatio ≤ 0 →
      s.letterbox (Ctx.doSave { ctx with fillStyle := s.backgroundColor }) =
        (Ctx.doSave { ctx with fillStyle := s.backgroundColor }, [], 0, 0) ∧
      (Scene.preCtx cam s ctx).transform = ctx.transform.comp (cameraXform cam) ∧
      (Scene.drawErr cam s ctx = none →
        ∃ mid, (∀ ev ∈ mid, ∃ i ly f t, ev = Ev.objDraw i ly f t) ∧
          Scene.drawTrace cam s ctx =
            Ev.fillRect 0 0 ctx.canvasWidth ctx.canvasHeight s.backgroundColor ::
            Ev.save :: Ev.scale cam.scaleX cam.scaleY :: Ev.translate (-cam.x) (-cam.y) ::
            (mid ++ [Ev.restore]))) ∧
    (Scene.preCtx cam s ctx).transform =
      ((s.letterbox (Ctx.doSave { ctx with fillStyle := s.backgroundColor })).1.transform).comp
        (cameraXform cam) := by
  constructor
  · intro h
    have hlb := Scene.letterbox_disabled s
      (Ctx.doSave { ctx with fillStyle := s.backgroundColor }) h
    refine ⟨hlb, ?_, ?_⟩
    · rw [Scene.preCtx_transform, hlb]; rfl
    · intro hok
      refine ⟨(drawLoop (Scene.preCtx cam s ctx)
          (List.insertionSort layerLE s.gameObjects)).2.1, fun ev hev => ?_, ?_⟩
      · obtain ⟨g, _, _, he⟩ := drawLoop_events _ _ _ hev
        exact ⟨g.id, g.layer, filterFor g.layer, _, he⟩
      · rw [Scene.drawErr_eq] at hok
        rw [Scene.drawTrace_eq, hok, hlb, Scene.letterboxBars_disabled s ctx _ _ h]
        simp
  · exact Scene.preCtx_transform cam s ctx

/-- Witness for C3 with `logicalWidth = aspectRatio = -1` and a camera at
(3, 4) with scale (2, 5) on an 800×400 canvas. -/
theorem c3_camera_only_witness :
    (Scene.letterbox
        { backgroundColor := "w", gameObjects := [], logicalWidth := -1, aspectRatio := -1 }
        (Ctx.doSave { mkCtx 800 400 with fillStyle := "w" }) =
      (Ctx.doSave { mkCtx 800 400 with fillStyle := "w" }, [], 0, 0)) ∧
    (Scene.preCtx ⟨3, 4, 2, 5⟩
        { backgroundColor := "w", gameObjects := [], logicalWidth := -1, aspectRatio := -1 }
        (mkCtx 800 400)).transform =
      Xform.comp (mkCtx 800 400).transform (cameraXform ⟨3, 4, 2, 5⟩) ∧
    (∃ mid, (∀ ev ∈ mid, ∃ i ly f t, ev = Ev.objDraw i ly f t) ∧
      Scene.drawTrace ⟨3, 4, 2, 5⟩
          { backgroundColor := "w", gameObjects := [], logicalWidth := -1, aspectRatio := -1 }
          (mkCtx 800 400) =
        Ev.fillRect 0 0 800 400 "w" ::
        Ev.save :: Ev.scale 2 5 :: Ev.translate (-3) (-4) ::
        (mid ++ [Ev.restore])) := by
  have h := (c3_camera_only ⟨3, 4, 2, 5⟩
    { backgroundColor := "w", gameObjects := [], logicalWidth := -1, aspectRatio := -1 }
    (mkCtx 800 400)).1 (Or.inl (by norm_num))
  exact ⟨h.1, h.2.1, h.2.2 (by decide)⟩

/-- C4: on a not-yet-started scene whose start hooks do not raise, `_start`
sets `hasStarted`, fires the scene's own optional start hook first and then
the start hook of every game object that has one, in insertion order; the
second call (and hence every later one) is a no-op, so each hook fires
exactly once across both calls. -/
theorem c4_start_idempotent (s : Scene) (h0 : s.hasStarted = false)
    (hs : s.start ≠ some true) (hg : ∀ g ∈ s.gameObjects, g.start ≠ some true) :
    Scene._start s = ({ s with hasStarted := true },
      (if s.start.isSome then [Ev.sceneStartHook] else []) ++ startEvents s.gameObjects,
      none) ∧
    Scene._start { s with hasStarted := true } =
      ({ s with hasStarted := true }, [], none) := by
  refine ⟨?_, _start_started _ rfl⟩
  cases hss : s.start with
  | none =>
    rw [_start_hook_none s h0 hss, startLoop_no_raise _ hg]
    simp [hss]
  | some raises =>
    cases raises with
    | true => exact absurd hss hs
    | false =>
      rw [_start_hook_ok s h0 hss, startLoop_no_raise _ hg]
      simp [hss]

/-- The scene of the C4 witness: a present non-raising scene hook and three
objects of which the first and third have start hooks. -/
def sceneC4 : Scene :=
  { backgroundColor := "w"
    gameObjects := [{ id := 0, layer := 0, start := some false },
      { id := 1, layer := 1 }, { id := 2, layer := 2, start := some false }]
    start := some false }

/-- Witness for C4: on `sceneC4` the first call fires the scene hook then
objects 0 and 2, and the second call does nothing. -/
theorem c4_start_idempotent_witness :
    Scene._start sceneC4 = ({ sceneC4 with hasStarted := true },
      (if sceneC4.start.isSome then [Ev.sceneStartHook] else []) ++
        startEvents sceneC4.gameObjects,
      none) ∧
    Scene._start { sceneC4 with hasStarted := true } =
      ({ sceneC4 with hasStarted := true }, [], none) :=
  c4_start_idempotent sceneC4 rfl (by decide) (by decide)

/-- C5: `draw` leaves the scene — in particular its game-object collection
and its insertion order — unchanged, and the layers of the objects it draws,
in draw order, are ascending: an object with a strictly greater layer is
never drawn before one with a strictly smaller layer. -/
theorem c5_draw_order (cam : Camera) (s : Scene) (ctx : Ctx) :
    (Scene.draw cam s ctx).1 = s ∧
    List.Sorted (· ≤ ·) (drawnLayers (Scene.drawTrace cam s ctx)) := by
  constructor
  · unfold Scene.draw
    by_cases h : (drawLoop (Scene.preCtx cam s ctx)
        (List.insertionSort layerLE s.gameObjects)).2.2.isSome <;> simp [h]
  · have hbnil : ∀ lb1 lb2 : ℚ, drawnLayers (s.letterboxBars ctx lb1 lb2) = [] := by
      intro lb1 lb2
      refine List.filterMap_eq_nil_iff.mpr fun a ha => ?_
      obtain ⟨x, y, w, h, st, rfl⟩ := letterboxBars_events s ctx lb1 lb2 a ha
      rfl
    have hsep : ∀ l1 l2 : List Ev, drawnLayers (l1 ++ l2) =
        drawnLayers l1 ++ drawnLayers l2 := fun l1 l2 => List.filterMap_append l1 l2 _
    have hpre : drawnLayers
        (Ev.fillRect 0 0 ctx.canvasWidth ctx.canvasHeight s.backgroundColor ::
          Ev.save ::
            ((s.letterbox (Ctx.doSave { ctx with fillStyle := s.backgroundColor })).2.1 ++
              [Ev.scale cam.scaleX cam.scaleY, Ev.translate (-cam.x) (-cam.y)])) = [] := by
      rcases Scene.letterbox_events s
          (Ctx.doSave { ctx with fillStyle := s.backgroundColor }) with hlb | ⟨a, b, ff, hlb⟩ <;>
        rw [hlb] <;> rfl
    have hsuf : drawnLayers (if (drawLoop (Scene.preCtx cam s ctx)
        (List.insertionSort layerLE s.gameObjects)).2.2.isSome then []
        else Ev.restore :: s.letterboxBars ctx
          (s.letterbox (Ctx.doSave { ctx with fillStyle := s.backgroundColor })).2.2.1
          (s.letterbox (Ctx.doSave { ctx with fillStyle := s.backgroundColor })).2.2.2) = [] := by
      split_ifs
      · rfl
      · show drawnLayers (Ev.restore :: _) = []
        unfold drawnLayers
        rw [List.filterMap_cons_none rfl]
        exact hbnil _ _
    have heq : drawnLayers (Scene.drawTrace cam s ctx) =
        drawnLayers (drawLoop (Scene.preCtx cam s ctx)
          (List.insertionSort layerLE s.gameObjects)).2.1 := by
      rw [Scene.drawTrace_eq, hsep, hsep, hpre, hsuf, List.nil_append, List.append_nil]
    rw [heq]
    exact drawLoop_layers_sorted _ (List.sorted_insertionSort layerLE s.gameObjects) _

/-- C6: whenever an object is drawn, the filter in force at the moment its
draw hook runs is the blur/glow value exactly when its layer is `-1` and
`"none"` otherwise — the filter is recomputed for every object, so no
filter state carries over from one draw call to the next. -/
theorem c6_glow_filter (cam : Camera) (s : Scene) (ctx : Ctx) (i : Nat) (ly : Int)
    (f : String) (t : Xform)
    (hmem : Ev.objDraw i ly f t ∈ Scene.drawTrace cam s ctx) :
    f = if ly = -1 then "blur(2px)" else "none" := by
  obtain ⟨g, _, _, he⟩ := drawLoop_events _ _ _ (drawTrace_objDraw_mem cam s ctx i ly f t hmem)
  injection he with h1 h2 h3 h4
  rw [h3, h2, filterFor]

/-- The scene of the C6 witness: a glowing layer `-1` object and a plain
layer `3` object. -/
def sceneC6 : Scene :=
  { backgroundColor := "w"
    gameObjects := [{ id := 0, layer := -1, draw := some false },
      { id := 1, layer := 3, draw := some false }] }

/-- The trace of one frame of `sceneC6`: both objects drawn, the glow one
under the blur filter, the other under `"none"`. -/
theorem sceneC6_trace :
    Scene.drawTrace camId sceneC6 (mkCtx 800 400) =
      [Ev.fillRect 0 0 800 400 "w", Ev.save, Ev.scale 1 1, Ev.translate (-0) (-0),
        Ev.objDraw 0 (-1) "blur(2px)" (Scene.preCtx camId sceneC6 (mkCtx 800 400)).transform,
        Ev.objDraw 1 3 "none" (Scene.preCtx camId sceneC6 (mkCtx 800 400)).transform,
        Ev.restore] := by
  rw [Scene.drawTrace_eq,
    Scene.letterbox_disabled sceneC6 _ (Or.inl (by norm_num [sceneC6]))]
  rw [show List.insertionSort layerLE sceneC6.gameObjects =
    [{ id := 0, layer := -1, draw := some false },
      { id := 1, layer := 3, draw := some false }] from rfl]
  rw [drawLoop_cons_ok _ _ _ rfl, drawLoop_cons_ok _ _ _ rfl, drawLoop_nil]
  rw [Scene.letterboxBars_disabled sceneC6 _ _ _ (Or.inl (by norm_num [sceneC6]))]
  simp [filterFor, mkCtx, camId, sceneC6]

/-- Witness for C6: in `sceneC6` the layer `-1` object is drawn with the
blur filter and the layer `3` object with filter `"none"`. -/
theorem c6_glow_filter_witness :
    ("blur(2px)" = if (-1 : Int) = -1 then "blur(2px)" else "none") ∧
    ("none" = if (3 : Int) = -1 then "blur(2px)" else "none") :=
  ⟨c6_glow_filter camId sceneC6 (mkCtx 800 400) 0 (-1) "blur(2px)"
      (Scene.preCtx camId sceneC6 (mkCtx 800 400)).transform
      (by rw [sceneC6_trace]; simp),
    c6_glow_filter camId sceneC6 (mkCtx 800 400) 1 3 "none"
      (Scene.preCtx camId sceneC6 (mkCtx 800 400)).transform
      (by rw [sceneC6_trace]; simp)⟩

/-- C7: on every normal (non-raising) execution of `draw` the context's
transform and save stack after the call equal those before it, whatever
letterbox branch and camera transform were applied in between, and the
trace holds exactly one save and exactly one restore. -/
theorem c7_save_restore (cam : Camera) (s : Scene) (ctx : Ctx)
    (hok : Scene.drawErr cam s ctx = none) :
    (Scene.drawCtx cam s ctx).transform = ctx.transform ∧
    (Scene.drawCtx cam s ctx).stack = ctx.stack ∧
    evCount Ev.save (Scene.drawTrace cam s ctx) = 1 ∧
    evCount Ev.restore (Scene.drawTrace cam s ctx) = 1 := by
  have hstack : (drawLoop (Scene.preCtx cam s ctx)
      (List.insertionSort layerLE s.gameObjects)).1.stack =
      ctx.transform :: ctx.stack := by
    rw [(drawLoop_fst _ _).2, Scene.preCtx_stack]
  have hres := Ctx.doRestore_of_stack _ _ _ hstack
  have hloop0 : ∀ e : Ev, (∀ i ly f t, e ≠ Ev.objDraw i ly f t) →
      evCount e (drawLoop (Scene.preCtx cam s ctx)
        (List.insertionSort layerLE s.gameObjects)).2.1 = 0 := by
    intro e he
    refine evCount_eq_zero e _ fun x hx => ?_
    obtain ⟨g, _, _, hxe⟩ := drawLoop_events _ _ _ hx
    rw [hxe]
    exact fun hc => he g.id g.layer (filterFor g.layer) _ hc.symm
  have hbars0 : ∀ e : Ev, (∀ x y w h st, e ≠ Ev.fillRect x y w h st) →
      ∀ lb1 lb2, evCount e (s.letterboxBars ctx lb1 lb2) = 0 := by
    intro e he lb1 lb2
    refine evCount_eq_zero e _ fun x hx => ?_
    obtain ⟨x1, y1, w1, h1, st1, hxe⟩ := letterboxBars_events s ctx lb1 lb2 x hx
    rw [hxe]
    exact fun hc => he x1 y1 w1 h1 st1 hc.symm
  have hok2 := hok
  rw [Scene.drawErr_eq] at hok2
  refine ⟨?_, ?_, ?_, ?_⟩
  · rw [Scene.drawCtx_eq cam s ctx hok]
    show (_ : Ctx).doRestore.transform = ctx.transform
    rw [hres]
  · rw [Scene.drawCtx_eq cam s ctx hok]
    show (_ : Ctx).doRestore.stack = ctx.stack
    rw [hres]
  · rw [Scene.drawTrace_eq, hok2]
    rcases Scene.letterbox_events s
        (Ctx.doSave { ctx with fillStyle := s.backgroundColor }) with hlb | ⟨a, b, ff, hlb⟩ <;>
      rw [hlb] <;>
      simp [evCount_append, evCount, hloop0 Ev.save (by intro i ly f t h; exact Ev.noConfusion h),
        hbars0 Ev.save (by intro x y w h st hc; exact Ev.noConfusion hc)]
  · rw [Scene.drawTrace_eq, hok2]
    rcases Scene.letterbox_events s
        (Ctx.doSave { ctx with fillStyle := s.backgroundColor }) with hlb | ⟨a, b, ff, hlb⟩ <;>
      rw [hlb] <;>
      simp [evCount_append, evCount,
        hloop0 Ev.restore (by intro i ly f t h; exact Ev.noConfusion h),
        hbars0 Ev.restore (by intro x y w h st hc; exact Ev.noConfusion hc)]

/-- The scene of the C7 witness: letterboxed, one drawn object. -/
def sceneC7 : Scene :=
  { backgroundColor := "w"
    gameObjects := [{ id := 0, layer := 0, draw := some false }]
    logicalWidth := 20
    aspectRatio := 1 }

/-- Witness for C7 on a letterboxed 800×400 frame. -/
theorem c7_save_restore_witness :
    (Scene.drawCtx camId sceneC7 (mkCtx 800 400)).transform = (mkCtx 800 400).transform ∧
    (Scene.drawCtx camId sceneC7 (mkCtx 800 400)).stack = (mkCtx 800 400).stack ∧
    evCount Ev.save (Scene.drawTrace camId sceneC7 (mkCtx 800 400)) = 1 ∧
    evCount Ev.restore (Scene.drawTrace camId sceneC7 (mkCtx 800 400)) = 1 :=
  c7_save_restore camId sceneC7 (mkCtx 800 400) (by decide)

/-- C10: every normal return of `draw` leaves the context's `fillStyle` set
to `"black"`: the assignment after the restore is unconditional, so the
caller's fill style is overwritten on every frame even when logical
coordinates are disabled and no bars are drawn. -/
theorem c10_fillStyle_black (cam : Camera) (s : Scene) (ctx : Ctx)
    (hok : Scene.drawErr cam s ctx = none) :
    (Scene.drawCtx cam s ctx).fillStyle = "black" := by
  rw [Scene.drawCtx_eq cam s ctx hok]

/-- The scene of the C10 witness: logical coordinates disabled. -/
def sceneC10 : Scene := { backgroundColor := "gray" }

/-- Witness for C10: no letterboxing, caller's fill style was `"w"`, and it
is still overwritten to `"black"`. -/
theorem c10_fillStyle_black_witness :
    (Scene.drawCtx camId sceneC10 (mkCtx 800 400)).fillStyle = "black" :=
  c10_fillStyle_black camId sceneC10 (mkCtx 800 400) (by decide)

/-- C8: a game object hook that raises propagates immediately out of the
Scene entry point — `update`, `draw` or `_start` — and every object after
the failing one in that call's iteration order (insertion order for
update/start, sorted order for draw) is skipped; the Scene performs no
catching, recovery, retry or logging around per-object hooks. -/
theorem c8_exception_propagation (cam : Camera) (s : Scene) (ctx : Ctx)
    (pre post : List GameObject) (g : GameObject) :
    (s.gameObjects = pre ++ g :: post → (∀ x ∈ pre, x.update ≠ some true) →
      g.update = some true →
      Scene.update s = (updateEvents pre ++ [Ev.objUpdate g.id], some (Err.obj g.id))) ∧
    (List.insertionSort layerLE s.gameObjects = pre ++ g :: post →
      (∀ x ∈ pre, x.draw ≠ some true) → g.draw = some true →
      Scene.drawErr cam s ctx = some (Err.obj g.id) ∧
      drawnIds (Scene.drawTrace cam s ctx) = drawIds pre ++ [g.id]) ∧
    (s.hasStarted = false → s.start ≠ some true →
      s.gameObjects = pre ++ g :: post → (∀ x ∈ pre, x.start ≠ some true) →
      g.start = some true →
      (Scene._start s).2.2 = some (Err.obj g.id) ∧
      (Scene._start s).2.1 =
        (if s.start.isSome then [Ev.sceneStartHook] else []) ++
          (startEvents pre ++ [Ev.objStart g.id])) := by
  refine ⟨?_, ?_, ?_⟩
  · intro h1 h2 h3
    unfold Scene.update
    rw [h1, updateLoop_raise pre g post h2 h3]
  · intro h1 h2 h3
    have hloop := drawLoop_raise pre g post h2 h3 (Scene.preCtx cam s ctx)
    rw [← h1] at hloop
    have herr : Scene.drawErr cam s ctx = some (Err.obj g.id) := by
      rw [Scene.drawErr_eq, hloop.1]
    refine ⟨herr, ?_⟩
    have hsep : ∀ l1 l2 : List Ev, drawnIds (l1 ++ l2) =
        drawnIds l1 ++ drawnIds l2 := fun l1 l2 => List.filterMap_append l1 l2 _
    have hpre : drawnIds
        (Ev.fillRect 0 0 ctx.canvasWidth ctx.canvasHeight s.backgroundColor ::
          Ev.save ::
            ((s.letterbox (Ctx.doSave { ctx with fillStyle := s.backgroundColor })).2.1 ++
              [Ev.scale cam.scaleX cam.scaleY, Ev.translate (-cam.x) (-cam.y)])) = [] := by
      rcases Scene.letterbox_events s
          (Ctx.doSave { ctx with fillStyle := s.backgroundColor }) with hlb | ⟨a, b, ff, hlb⟩ <;>
        rw [hlb] <;> rfl
    have hsome : (drawLoop (Scene.preCtx cam s ctx)
        (List.insertionSort layerLE s.gameObjects)).2.2.isSome = true := by
      rw [hloop.1]; rfl
    rw [Scene.drawTrace_eq, hsep, hsep, hpre, if_pos hsome, hloop.2]
    simp [drawnIds]
  · intro h0 hs h1 h2 h3
    cases hss : s.start with
    | none =>
      rw [_start_hook_none s h0 hss]
      have heq : s.gameObjects = pre ++ g :: post := h1
      rw [show ({ s with hasStarted := true } : Scene).gameObjects = s.gameObjects from rfl,
        heq, startLoop_raise pre g post h2 h3]
      simp [hss]
    | some raises =>
      cases raises with
      | true => exact absurd hss hs
      | false =>
        rw [_start_hook_ok s h0 hss]
        have heq : s.gameObjects = pre ++ g :: post := h1
        rw [show ({ s with hasStarted := true } : Scene).gameObjects = s.gameObjects from rfl,
          heq, startLoop_raise pre g post h2 h3]
        simp [hss]

/-- The single game object of the C8 witness: all three hooks present and
raising. -/
def gObjC8 : GameObject :=
  { id := 7
    layer := 0
    start := some true
    update := some true
    draw := some true }

/-- The scene of the C8 witness. -/
def sceneC8 : Scene := { backgroundColor := "w", gameObjects := [gObjC8] }

/-- Witness for C8: in a one-object scene whose hooks all raise, each entry
point stops at object 7 with its exception. -/
theorem c8_exception_propagation_witness :
    (Scene.update sceneC8 = (updateEvents [] ++ [Ev.objUpdate 7], some (Err.obj 7))) ∧
    (Scene.drawErr camId sceneC8 (mkCtx 800 400) = some (Err.obj 7) ∧
      drawnIds (Scene.drawTrace camId sceneC8 (mkCtx 800 400)) = drawIds [] ++ [7]) ∧
    ((Scene._start sceneC8).2.2 = some (Err.obj 7) ∧
      (Scene._start sceneC8).2.1 =
        (if sceneC8.start.isSome then [Ev.sceneStartHook] else []) ++
          (startEvents [] ++ [Ev.objStart 7])) := by
  have h := c8_exception_propagation camId sceneC8 (mkCtx 800 400) [] [] gObjC8
  exact ⟨h.1 rfl (by simp) rfl, h.2.1 rfl (by simp) rfl,
    h.2.2 rfl (by decide) rfl (by simp) rfl⟩

/-- The `w > h` branch of the second version's letterbox. -/
theorem Scene2.letterbox_gt (c0 : Ctx) (h : c0.canvasWidth > c0.canvasHeight) :
    Scene2.letterbox c0 =
      ((c0.doTranslate (c0.canvasWidth / 2 - (c0.canvasHeight / 100) / 2) 0).doScale
          (c0.canvasHeight / 20) (c0.canvasHeight / 20),
        [Ev.translate (c0.canvasWidth / 2 - (c0.canvasHeight / 100) / 2) 0,
          Ev.scale (c0.canvasHeight / 20) (c0.canvasHeight / 20)],
        c0.canvasWidth / 2 - (c0.canvasHeight / 100) / 2,
        c0.canvasWidth / 2 + (c0.canvasHeight / 100) / 2) := by
  unfold Scene2.letterbox
  rw [if_pos h]

/-- The `w ≤ h` branch of the second version's letterbox. -/
theorem Scene2.letterbox_le (c0 : Ctx) (h : ¬c0.canvasWidth > c0.canvasHeight) :
    Scene2.letterbox c0 =
      ((c0.doTranslate 0 ((c0.canvasHeight - c0.canvasWidth) / 2)).doScale
          (c0.canvasWidth / 20) (c0.canvasWidth / 20),
        [Ev.translate 0 ((c0.canvasHeight - c0.canvasWidth) / 2),
          Ev.scale (c0.canvasWidth / 20) (c0.canvasWidth / 20)],
        (c0.canvasHeight - c0.canvasWidth) / 2,
        (c0.canvasWidth + c0.canvasHeight) / 2) := by
  unfold Scene2.letterbox
  rw [if_neg h]

/-- The full trace of the second version's `draw`. -/
theorem Scene2.drawTraceV2_eq (s : Scene2) (ctx : Ctx) :
    Scene2.drawTrace s ctx =
      (Ev.fillRect 0 0 ctx.canvasWidth ctx.canvasHeight s.backgroundColor ::
        Ev.save ::
          (Scene2.letterbox (Ctx.doSave { ctx with fillStyle := s.backgroundColor })).2.1) ++
      (drawLoop (Scene2.letterbox (Ctx.doSave { ctx with fillStyle := s.backgroundColor })).1
        (List.insertionSort layerLE s.gameObjects)).2.1 ++
      (if (drawLoop (Scene2.letterbox (Ctx.doSave { ctx with fillStyle := s.backgroundColor })).1
            (List.insertionSort layerLE s.gameObjects)).2.2.isSome then []
        else Ev.restore ::
          Scene2.letterboxBars ctx
            (Scene2.letterbox (Ctx.doSave { ctx with fillStyle := s.backgroundColor })).2.2.1
            (Scene2.letterbox (Ctx.doSave { ctx with fillStyle := s.backgroundColor })).2.2.2) := by
  unfold Scene2.drawTrace Scene2.draw
  cases h : (drawLoop (Scene2.letterbox (Ctx.doSave { ctx with fillStyle := s.backgroundColor })).1
      (List.insertionSort layerLE s.gameObjects)).2.2 <;> simp [h]

/-- The canonical scene configured like the hard-coded one:
`logicalWidth = 20`, `aspectRatio = 100`, one drawn object. -/
def sceneV1 : Scene :=
  { backgroundColor := "w"
    gameObjects := [{ id := 0, layer := 0, draw := some false }]
    logicalWidth := 20
    aspectRatio := 100 }

/-- The second version's scene with the same object. -/
def sceneV2 : Scene2 :=
  { backgroundColor := "w"
    gameObjects := [{ id := 0, layer := 0, draw := some false }] }

/-- C9: the two `Scene.draw` implementations compute different letterbox
geometry.  On a 400×800 canvas the canonical version (with
`logicalWidth = 20`, `aspectRatio = 100`) takes its left/right branch
(`aspectRatio > windowAspectRatio`) while the hard-coded version takes its
top/bottom branch (`width > height` fails); on a 1×200 canvas both take the
top/bottom case but disagree on `letterBox1End`, `letterBox2Start` and the
scale factor; consequently their draw traces differ, so the simpler
version is not equivalent to the canonical one. -/
theorem c9_versions_disagree :
    (Scene.letterbox sceneV1 (mkCtx 400 800)).2.1 =
      [Ev.translate 196 0, Ev.scale 40 40] ∧
    (Scene2.letterbox (mkCtx 400 800)).2.1 =
      [Ev.translate 0 200, Ev.scale 20 20] ∧
    (Scene.letterbox sceneV1 (mkCtx 1 200)).2.1 =
      [Ev.translate 0 50, Ev.scale 5 5] ∧
    (Scene.letterbox sceneV1 (mkCtx 1 200)).2.2 = (50, 150) ∧
    (Scene2.letterbox (mkCtx 1 200)).2.1 =
      [Ev.translate 0 (199 / 2), Ev.scale (1 / 20) (1 / 20)] ∧
    (Scene2.letterbox (mkCtx 1 200)).2.2 = (199 / 2, 201 / 2) ∧
    Scene.drawTrace camId sceneV1 (mkCtx 400 800) ≠
      Scene2.drawTrace sceneV2 (mkCtx 400 800) := by
  refine ⟨?_, ?_, ?_, ?_, ?_, ?_, ?_⟩
  · rw [Scene.letterbox_left_right sceneV1 (mkCtx 400 800) (by norm_num [sceneV1])
      (by norm_num [sceneV1]) (by norm_num [sceneV1, mkCtx])]
    norm_num [mkCtx, sceneV1]
  · rw [Scene2.letterbox_le (mkCtx 400 800) (by norm_num [mkCtx])]
    norm_num [mkCtx]
  · rw [Scene.letterbox_top_bottom sceneV1 (mkCtx 1 200) (by norm_num [sceneV1])
      (by norm_num [sceneV1]) (by norm_num [sceneV1, mkCtx])]
    norm_num [mkCtx, sceneV1]
  · rw [Scene.letterbox_top_bottom sceneV1 (mkCtx 1 200) (by norm_num [sceneV1])
      (by norm_num [sceneV1]) (by norm_num [sceneV1, mkCtx])]
    norm_num [mkCtx, sceneV1]
  · rw [Scene2.letterbox_le (mkCtx 1 200) (by norm_num [mkCtx])]
    norm_num [mkCtx]
  · rw [Scene2.letterbox_le (mkCtx 1 200) (by norm_num [mkCtx])]
    norm_num [mkCtx]
  · intro hcontra
    have h2 := congrArg (fun l : List Ev => l[2]?) hcontra
    rw [Scene.drawTrace_eq, Scene.letterbox_left_right sceneV1 _ (by norm_num [sceneV1])
      (by norm_num [sceneV1]) (by norm_num [sceneV1, mkCtx, Ctx.doSave]),
      Scene2.drawTraceV2_eq, Scene2.letterbox_le _ (by norm_num [mkCtx, Ctx.doSave])] at h2
    simp only [List.cons_append, List.append_assoc, List.getElem?_cons_zero,
      List.getElem?_cons_succ] at h2
    injection h2 with h2
    injection h2 with ha hb
    rw [show (Ctx.doSave { mkCtx 400 800 with fillStyle := sceneV1.backgroundColor
      }).canvasWidth = 400 from rfl] at ha
    norm_num [mkCtx, Ctx.doSave, sceneV1] at ha hb

end Claims

end Day24
